import Mathlib

/-!
Verification of the protocol engine of the SparkFun ATECCX08a Arduino library
(`src/SparkFun_ATECCX08a_Arduino_Library.cpp`), shallowly embedded in Lean.

Bytes and registers are modelled as natural numbers, with C unsigned wraparound
made explicit (`% 2 ^ 16` for the `uint16_t` CRC register, the `uint8_t`
decrement of `length` wraps `0 - 1` to `255`).  The fixed C array
`inputBuffer`, zeroed by `cleanInputBuffer` before each reception, is modelled
as the list of bytes received so far; cells beyond the received count are read
through `List.getD _ _ 0` and hence read as zero, exactly like the freshly
zeroed array.  The I2C transport (the `Wire` object) is external to the
library; it is modelled as the list of byte chunks that successive
`requestFrom` calls make available on the bus.  Functions whose C loop can
spin forever when the transport never delivers return `Option`, with `none`
for the non-terminating run.
-/

namespace ATECCX08A

/-- One pass of the inner bit loop of `atca_calculate_crc` (lines 417-423):
read the current top bit (`crc_bit = crc_register >> 15`), shift the 16-bit
register left by one, and XOR with the polynomial `0x8005` when the data bit
and the top bit differ. -/
def crcBitStep (crc_register : Nat) (data_bit : Nat) : Nat :=
  if data_bit ≠ crc_register >>> 15 then ((crc_register <<< 1) % 2 ^ 16) ^^^ 0x8005
  else (crc_register <<< 1) % 2 ^ 16

/-- The `data_bit` of line 418: `(data[counter] & shift_register) ? 1 : 0`,
where `shift_register` runs through `1 << 0, …, 1 << 7`. -/
def dataBit (b : Nat) (i : Nat) : Nat := if b &&& (1 <<< i) ≠ 0 then 1 else 0

/-- Inner loop of `atca_calculate_crc` over the bit indices in `idxs`; the
source runs it on indices `0, …, 7` (least significant bit first), the
general list is used for reasoning about partial runs. -/
def crcBitsFold (crc_register : Nat) (b : Nat) (idxs : List Nat) : Nat :=
  idxs.foldl (fun r i => crcBitStep r (dataBit b i)) crc_register

/-- One pass of the outer byte loop of `atca_calculate_crc`. -/
def crcByteStep (crc_register : Nat) (b : Nat) : Nat :=
  crcBitsFold crc_register b (List.range 8)

/-- Final value of `crc_register` after `atca_calculate_crc` over `data`,
starting from the initial register `0`. -/
def crcRegister (data : List Nat) : Nat := data.foldl crcByteStep 0

/-- `ATECCX08A::atca_calculate_crc` (lines 409-427).  The C function receives
a length and a pointer and fills the member array `crc[2]`; here it takes the
list of the `length` bytes covered and returns the pair
`(crc[0], crc[1]) = (crc_register & 0x00FF, crc_register >> 8)`. -/
def atca_calculate_crc (data : List Nat) : Nat × Nat :=
  (crcRegister data &&& 0xFF, crcRegister data >>> 8)

/-- The first `n` cells of the zero-initialised input buffer array, as read by
`atca_calculate_crc(n, inputBuffer)`. -/
def bufBytes (inputBuffer : List Nat) (n : Nat) : List Nat :=
  (List.range n).map (fun k => inputBuffer.getD k 0)

/-- `ATECCX08A::checkCrc` (lines 373-394): recompute the CRC over the first
`countGlobal - 2` buffer cells, then fail iff `inputBuffer[countGlobal-1]`
differs from `crc[1]` or `inputBuffer[countGlobal-2]` differs from `crc[0]`. -/
def checkCrc (inputBuffer : List Nat) (countGlobal : Nat) : Bool :=
  if inputBuffer.getD (countGlobal - 1) 0 ≠
       (atca_calculate_crc (bufBytes inputBuffer (countGlobal - 2))).2 ∨
     inputBuffer.getD (countGlobal - 2) 0 ≠
       (atca_calculate_crc (bufBytes inputBuffer (countGlobal - 2))).1
  then false else true

/-- `ATECCX08A::checkCount` (lines 346-362): fail iff `inputBuffer[0]` differs
from `countGlobal`. -/
def checkCount (inputBuffer : List Nat) (countGlobal : Nat) : Bool :=
  if inputBuffer.getD 0 0 ≠ countGlobal then false else true

/-- Inner `while (_i2cPort->available())` loop of `receiveResponseData`
(lines 316-321) run on one chunk of available bytes: each byte is stored at
`inputBuffer[countGlobal]`, the `uint8_t` remaining `length` is decremented
(wrapping `0 - 1` to `255`), and `countGlobal` is incremented.  Returns the
updated `(length, inputBuffer, countGlobal)`. -/
def readChunk : List Nat → Nat → List Nat → Nat → Nat × List Nat × Nat
  | [], length, buf, cnt => (length, buf, cnt)
  | b :: rest, length, buf, cnt =>
      readChunk rest (if length = 0 then 255 else length - 1) (buf ++ [b]) (cnt + 1)

/-- Outer `while (length)` loop of `receiveResponseData` (lines 309-322).
`chunks` is the transport: the byte chunks that successive `requestFrom`
calls make available.  `none` models the C loop spinning forever because the
transport never delivers the remaining bytes.  The last component of the
result collects the `requestAmount` of every `requestFrom` issued, in order
(the observable bus-read trace). -/
def receiveLoop : List (List Nat) → Nat → List Nat → Nat →
    Option (List Nat × Nat × List Nat)
  | _, 0, buf, cnt => some (buf, cnt, [])
  | [], _ + 1, _, _ => none
  | c :: rest, l + 1, buf, cnt =>
      let requestAmount := if l + 1 > 32 then 32 else l + 1
      match readChunk c (l + 1) buf cnt with
      | (l2, buf2, cnt2) =>
        match receiveLoop rest l2 buf2 cnt2 with
        | none => none
        | some (buf3, cnt3, reqs) => some (buf3, cnt3, requestAmount :: reqs)

/-- `ATECCX08A::receiveResponseData` (lines 298-335): reset `countGlobal` to
zero, clean the input buffer, run the chunked read loop, and return `true`.
The result is `(returned boolean, inputBuffer, countGlobal, request trace)`;
`none` models a transport that never satisfies the requested length. -/
def receiveResponseData (length : Nat) (chunks : List (List Nat)) :
    Option (Bool × List Nat × Nat × List Nat) :=
  match receiveLoop chunks length [] 0 with
  | none => none
  | some (buf, cnt, reqs) => some (true, buf, cnt, reqs)

/-- `ATECCX08A::wakeUp` (lines 70-87), from the read-back on.  The wake pulse
and the settle delay are transport-side effects with no data flow into the
result; the data path is: receive 4 bytes, test the receive result, check the
count, check the CRC, and require `inputBuffer[1] == 0x11`. -/
def wakeUp (chunks : List (List Nat)) : Option Bool :=
  match receiveResponseData 4 chunks with
  | none => none
  | some (ok, buf, cnt, _) =>
    if ok = false then some false
    else if checkCount buf cnt = false then some false
    else if checkCrc buf cnt = false then some false
    else if buf.getD 1 0 = 0x11 then some true
    else some false

/-- `ATECCX08A::getInfo` (lines 117-152), from the read-back on: receive 7
bytes, test the receive result, check count and CRC, and require
`inputBuffer[3] == 0x50`. -/
def getInfo (chunks : List (List Nat)) : Option Bool :=
  match receiveResponseData 7 chunks with
  | none => none
  | some (ok, buf, cnt, _) =>
    if ok = false then some false
    else if checkCount buf cnt = false then some false
    else if checkCrc buf cnt = false then some false
    else if buf.getD 3 0 = 0x50 then some true
    else some false

/-- `ATECCX08A::updateRandom32Bytes` (lines 168-222), from the read-back on:
receive 35 bytes, test the receive result, check count and CRC; on success
copy `inputBuffer[1] … inputBuffer[32]` into `random32Bytes[0] … [31]`
(lines 205-208), on any failure return `false` leaving `random32Bytes`
untouched.  Result: `(returned boolean, new random32Bytes)`. -/
def updateRandom32Bytes (random32Bytes : List Nat) (chunks : List (List Nat)) :
    Option (Bool × List Nat) :=
  match receiveResponseData 35 chunks with
  | none => none
  | some (ok, buf, cnt, _) =>
    if ok = false then some (false, random32Bytes)
    else if checkCount buf cnt = false then some (false, random32Bytes)
    else if checkCrc buf cnt = false then some (false, random32Bytes)
    else some (true, (List.range 32).map (fun i => buf.getD (i + 1) 0))

/-- `ATECCX08A::getRandomByte` (lines 232-236): run the fetch, then return
`random32Bytes[0]`.  The boolean result of the fetch is discarded. -/
def getRandomByte (random32Bytes : List Nat) (chunks : List (List Nat)) :
    Option (Nat × List Nat) :=
  match updateRandom32Bytes random32Bytes chunks with
  | none => none
  | some (_, r) => some (r.getD 0 0, r)

/-- `ATECCX08A::getRandomInt` (lines 247-255): run the fetch, then build
`return_val = random32Bytes[0]; return_val <<= 8; return_val |= random32Bytes[1]`.
The 16-bit pattern is modelled as a natural number. -/
def getRandomInt (random32Bytes : List Nat) (chunks : List (List Nat)) :
    Option (Nat × List Nat) :=
  match updateRandom32Bytes random32Bytes chunks with
  | none => none
  | some (_, r) => some (((r.getD 0 0) <<< 8) ||| r.getD 1 0, r)

/-- `ATECCX08A::getRandomLong` (lines 266-278): run the fetch, then shift-or
the first four bytes of `random32Bytes` together, most significant first.
The 32-bit pattern is modelled as a natural number. -/
def getRandomLong (random32Bytes : List Nat) (chunks : List (List Nat)) :
    Option (Nat × List Nat) :=
  match updateRandom32Bytes random32Bytes chunks with
  | none => none
  | some (_, r) =>
    some ((((((r.getD 0 0) <<< 8 ||| r.getD 1 0) <<< 8) ||| r.getD 2 0) <<< 8)
            ||| r.getD 3 0, r)

/-- `wakeUp` with the `receiveResponseData(4) == false` early return of line 82
removed; used to state that this failure branch never fires. -/
def wakeUpNoRecvTest (chunks : List (List Nat)) : Option Bool :=
  match receiveResponseData 4 chunks with
  | none => none
  | some (_, buf, cnt, _) =>
    if checkCount buf cnt = false then some false
    else if checkCrc buf cnt = false then some false
    else if buf.getD 1 0 = 0x11 then some true
    else some false

/-- `getInfo` with the `receiveResponseData(7, true) == false` early return of
line 146 removed; used to state that this failure branch never fires. -/
def getInfoNoRecvTest (chunks : List (List Nat)) : Option Bool :=
  match receiveResponseData 7 chunks with
  | none => none
  | some (_, buf, cnt, _) =>
    if checkCount buf cnt = false then some false
    else if checkCrc buf cnt = false then some false
    else if buf.getD 3 0 = 0x50 then some true
    else some false

/-- `updateRandom32Bytes` with the `receiveResponseData(35, debug) == false`
early return of line 197 removed; used to state that this failure branch
never fires. -/
def updateRandom32BytesNoRecvTest (random32Bytes : List Nat)
    (chunks : List (List Nat)) : Option (Bool × List Nat) :=
  match receiveResponseData 35 chunks with
  | none => none
  | some (_, buf, cnt, _) =>
    if checkCount buf cnt = false then some (false, random32Bytes)
    else if checkCrc buf cnt = false then some (false, random32Bytes)
    else some (true, (List.range 32).map (fun i => buf.getD (i + 1) 0))

/-- Well-behaved transport: every chunk made available by a `requestFrom` is
at most the requested amount (`min 32 remaining`), as the Arduino `Wire`
transport guarantees ("slave may send less than requested", line 316). -/
def wfTransport : List (List Nat) → Nat → Bool
  | _, 0 => true
  | [], _ + 1 => true
  | c :: rest, l + 1 =>
      decide (c.length ≤ min 32 (l + 1)) && wfTransport rest (l + 1 - c.length)

/-- Transport that is well behaved and delivers exactly the requested total
number of bytes (never stalling with an empty remainder). -/
def deliversAll : List (List Nat) → Nat → Bool
  | [], l => decide (l = 0)
  | c :: rest, l =>
      decide (0 < l) && decide (c.length ≤ min 32 l) && deliversAll rest (l - c.length)

/-- Byte sequence with bit `j` of byte `i` flipped (count and all other bits
unchanged). -/
def flipBit (resp : List Nat) (i j : Nat) : List Nat :=
  resp.set i ((resp.getD i 0) ^^^ (1 <<< j))

/-- Spec-side checksum definition, written from the words of section 4.7 of
the specification and not from the source: a 16-bit register starting at 0;
each input byte is processed least-significant-bit first; each data bit is
compared with the current top bit of the register, the register is shifted
left by one, and XORed with the polynomial 0x8005 whenever the two bits
differ; the output is the register split into low byte then high byte. -/
def crc16spec (data : List Nat) : Nat × Nat :=
  let reg := data.foldl
    (fun reg b => (List.range 8).foldl
      (fun reg i =>
        let bit := b / 2 ^ i % 2
        let top := reg / 2 ^ 15
        let reg2 := reg * 2 % 2 ^ 16
        if bit ≠ top then reg2 ^^^ 0x8005 else reg2)
      reg)
    0
  (reg % 2 ^ 8, reg / 2 ^ 8)

/-! ## Bit-level helper lemmas for the CRC register -/

theorem dataBit_testBit (b i : Nat) : dataBit b i = (b.testBit i).toNat := by
  unfold dataBit
  rw [Nat.shiftLeft_eq, one_mul, Nat.and_two_pow]
  cases h : b.testBit i <;> simp

theorem dataBit_le (b i : Nat) : dataBit b i ≤ 1 := by
  rw [dataBit_testBit]; cases b.testBit i <;> simp

theorem dataBit_div_mod (b i : Nat) : dataBit b i = b / 2 ^ i % 2 := by
  have h2 : b / 2 ^ i % 2 < 2 := Nat.mod_lt _ (by norm_num)
  rw [dataBit_testBit, Nat.testBit_to_div_mod]
  rcases Nat.le_one_iff_eq_zero_or_eq_one.mp (Nat.lt_succ_iff.mp h2) with e | e <;>
    simp [e]

theorem and_two_pow_sub_one (x n : Nat) : x &&& (2 ^ n - 1) = x % 2 ^ n := by
  apply Nat.eq_of_testBit_eq
  intro i
  rw [Nat.testBit_and, Nat.testBit_two_pow_sub_one, Nat.testBit_mod_two_pow,
    Bool.and_comm]

theorem shiftRight_xor (a b n : Nat) : (a ^^^ b) >>> n = a >>> n ^^^ b >>> n := by
  apply Nat.eq_of_testBit_eq
  intro i
  rw [Nat.testBit_shiftRight, Nat.testBit_xor, Nat.testBit_xor,
    Nat.testBit_shiftRight, Nat.testBit_shiftRight]

theorem shiftLeft_mod_xor (a b : Nat) :
    ((a <<< 1) % 2 ^ 16) ^^^ ((b <<< 1) % 2 ^ 16) = ((a ^^^ b) <<< 1) % 2 ^ 16 := by
  apply Nat.eq_of_testBit_eq
  intro i
  simp only [Nat.testBit_xor, Nat.testBit_mod_two_pow, Nat.testBit_shiftLeft]
  by_cases h16 : i < 16 <;> by_cases h1 : 1 ≤ i <;>
    simp [h16, h1, Nat.testBit_xor]

theorem crcBitStep_lt (r d : Nat) : crcBitStep r d < 2 ^ 16 := by
  unfold crcBitStep
  split
  · exact Nat.xor_lt_two_pow (Nat.mod_lt _ (by norm_num)) (by norm_num)
  · exact Nat.mod_lt _ (by norm_num)

theorem shiftRight15_le_one (r : Nat) (h : r < 2 ^ 16) : r >>> 15 ≤ 1 := by
  rw [Nat.shiftRight_eq_div_pow]
  have : r / 2 ^ 15 < 2 := Nat.div_lt_of_lt_mul (by norm_num at h ⊢; omega)
  omega

theorem xor_xor_cancel (a b p : Nat) : (a ^^^ p) ^^^ (b ^^^ p) = a ^^^ b := by
  rw [Nat.xor_comm b p, ← Nat.xor_assoc, Nat.xor_assoc a p p, Nat.xor_self,
    Nat.xor_zero]

theorem xor_left_comm (a b c : Nat) : a ^^^ (b ^^^ c) = b ^^^ (a ^^^ c) := by
  rw [← Nat.xor_assoc, Nat.xor_comm a b, Nat.xor_assoc]

theorem xor_ne_self (x p : Nat) (hp : p ≠ 0) : x ^^^ p ≠ x := by
  intro h
  apply hp
  have h2 := congrArg (fun y => x ^^^ y) h
  simpa [Nat.xor_cancel_left, Nat.xor_self] using h2

theorem crcBitStep_xor (r1 r2 d : Nat) (h1 : r1 < 2 ^ 16) (h2 : r2 < 2 ^ 16)
    (hd : d ≤ 1) :
    crcBitStep r1 d ^^^ crcBitStep r2 d = crcBitStep (r1 ^^^ r2) 0 := by
  have htx : (r1 ^^^ r2) >>> 15 = r1 >>> 15 ^^^ r2 >>> 15 := shiftRight_xor r1 r2 15
  rcases Nat.le_one_iff_eq_zero_or_eq_one.mp (shiftRight15_le_one r1 h1) with e1 | e1 <;>
    rcases Nat.le_one_iff_eq_zero_or_eq_one.mp (shiftRight15_le_one r2 h2) with e2 | e2 <;>
    rcases Nat.le_one_iff_eq_zero_or_eq_one.mp hd with ed | ed <;>
    simp only [crcBitStep, htx, e1, e2, ed, ← shiftLeft_mod_xor] <;>
    norm_num <;>
    simp [Nat.xor_assoc, Nat.xor_comm, xor_left_comm, xor_xor_cancel,
      Nat.xor_cancel_right, Nat.xor_cancel_left]

theorem crcBitStep_zero_ne (d : Nat) (h : d < 2 ^ 16) (h0 : d ≠ 0) :
    crcBitStep d 0 ≠ 0 := by
  unfold crcBitStep
  rcases Nat.le_one_iff_eq_zero_or_eq_one.mp (shiftRight15_le_one d h) with ht | ht <;>
    simp only [ht]
  · rw [if_neg (by norm_num)]
    have hlt : d < 2 ^ 15 := by
      rw [Nat.shiftRight_eq_div_pow] at ht
      by_contra hge
      have := Nat.div_le_div_right (c := 2 ^ 15) (Nat.le_of_not_lt hge)
      rw [Nat.div_self (by norm_num)] at this
      omega
    rw [Nat.shiftLeft_eq, Nat.pow_one, Nat.mod_eq_of_lt (by norm_num at hlt ⊢; omega)]
    omega
  · rw [if_pos (by norm_num)]
    intro hz
    have hsp := Nat.xor_eq_zero.mp hz
    have e216 : (2 : Nat) ^ 16 = 2 * 2 ^ 15 := by norm_num
    rw [Nat.shiftLeft_eq, Nat.pow_one, Nat.mul_comm d 2, e216,
      Nat.mul_mod_mul_left] at hsp
    omega

theorem crcBitStep_d_ne (r d1 d2 : Nat) (h : r < 2 ^ 16) (hd1 : d1 ≤ 1)
    (hd2 : d2 ≤ 1) (hne : d1 ≠ d2) : crcBitStep r d1 ≠ crcBitStep r d2 := by
  unfold crcBitStep
  rcases Nat.le_one_iff_eq_zero_or_eq_one.mp (shiftRight15_le_one r h) with ht | ht <;>
    rcases Nat.le_one_iff_eq_zero_or_eq_one.mp hd1 with e1 | e1 <;>
    rcases Nat.le_one_iff_eq_zero_or_eq_one.mp hd2 with e2 | e2 <;>
    subst e1 <;> subst e2 <;> simp only [ht] <;>
    try exact absurd rfl hne
  · rw [if_neg (by norm_num), if_pos (by norm_num)]
    exact Ne.symm (xor_ne_self _ _ (by norm_num))
  · rw [if_pos (by norm_num), if_neg (by norm_num)]
    exact xor_ne_self _ _ (by norm_num)
  · rw [if_pos (by norm_num), if_neg (by norm_num)]
    exact xor_ne_self _ _ (by norm_num)
  · rw [if_neg (by norm_num), if_pos (by norm_num)]
    exact Ne.symm (xor_ne_self _ _ (by norm_num))

/-! ## Fold-level lemmas: the CRC register separates differing inputs -/

theorem crcBitsFold_nil (r b : Nat) : crcBitsFold r b [] = r := rfl

theorem crcBitsFold_cons (r b i : Nat) (is : List Nat) :
    crcBitsFold r b (i :: is) = crcBitsFold (crcBitStep r (dataBit b i)) b is := rfl

theorem crcBitsFold_append (r b : Nat) (l1 l2 : List Nat) :
    crcBitsFold r b (l1 ++ l2) = crcBitsFold (crcBitsFold r b l1) b l2 :=
  List.foldl_append _ _ _ _

theorem crcBitsFold_lt (idxs : List Nat) (b : Nat) :
    ∀ r : Nat, r < 2 ^ 16 → crcBitsFold r b idxs < 2 ^ 16 := by
  induction idxs with
  | nil => intro r h; exact h
  | cons i is ih =>
    intro r _
    rw [crcBitsFold_cons]
    exact ih _ (crcBitStep_lt _ _)

theorem crcBitsFold_ne (idxs : List Nat) (b1 b2 : Nat)
    (hb : ∀ k ∈ idxs, dataBit b1 k = dataBit b2 k) :
    ∀ r1 r2 : Nat, r1 < 2 ^ 16 → r2 < 2 ^ 16 → r1 ≠ r2 →
    crcBitsFold r1 b1 idxs ≠ crcBitsFold r2 b2 idxs := by
  induction idxs with
  | nil => intro r1 r2 _ _ hne; exact hne
  | cons i is ih =>
    intro r1 r2 h1 h2 hne
    rw [crcBitsFold_cons, crcBitsFold_cons, hb i (by simp)]
    apply ih (fun k hk => hb k (List.mem_cons_of_mem _ hk)) _ _
      (crcBitStep_lt _ _) (crcBitStep_lt _ _)
    intro heq
    have hx : crcBitStep r1 (dataBit b2 i) ^^^ crcBitStep r2 (dataBit b2 i) = 0 := by
      rw [heq, Nat.xor_self]
    rw [crcBitStep_xor _ _ _ h1 h2 (dataBit_le _ _)] at hx
    exact crcBitStep_zero_ne _ (Nat.xor_lt_two_pow h1 h2)
      (fun h0 => hne (Nat.xor_eq_zero.mp h0)) hx

theorem crcByteStep_lt (r b : Nat) (h : r < 2 ^ 16) : crcByteStep r b < 2 ^ 16 :=
  crcBitsFold_lt _ _ _ h

theorem crcByteStep_ne (b r1 r2 : Nat) (h1 : r1 < 2 ^ 16) (h2 : r2 < 2 ^ 16)
    (hne : r1 ≠ r2) : crcByteStep r1 b ≠ crcByteStep r2 b :=
  crcBitsFold_ne _ b b (fun _ _ => rfl) _ _ h1 h2 hne

theorem crcFold_lt (data : List Nat) :
    ∀ r : Nat, r < 2 ^ 16 → data.foldl crcByteStep r < 2 ^ 16 := by
  induction data with
  | nil => intro r h; exact h
  | cons b t ih =>
    intro r h
    rw [List.foldl_cons]
    exact ih _ (crcByteStep_lt _ _ h)

theorem crcFold_ne (data : List Nat) :
    ∀ r1 r2 : Nat, r1 < 2 ^ 16 → r2 < 2 ^ 16 → r1 ≠ r2 →
    data.foldl crcByteStep r1 ≠ data.foldl crcByteStep r2 := by
  induction data with
  | nil => intro r1 r2 _ _ hne; exact hne
  | cons b t ih =>
    intro r1 r2 h1 h2 hne
    rw [List.foldl_cons, List.foldl_cons]
    exact ih _ _ (crcByteStep_lt _ _ h1) (crcByteStep_lt _ _ h2)
      (crcByteStep_ne b _ _ h1 h2 hne)

/-! ## A single flipped bit always changes the CRC -/

theorem dataBit_flip_ne (b j k : Nat) (hkj : k ≠ j) :
    dataBit (b ^^^ (1 <<< j)) k = dataBit b k := by
  rw [dataBit_testBit, dataBit_testBit, Nat.shiftLeft_eq, one_mul, Nat.testBit_xor,
    Nat.testBit_two_pow_of_ne (fun h => hkj h.symm)]
  simp

theorem dataBit_flip_self (b j : Nat) :
    dataBit (b ^^^ (1 <<< j)) j ≠ dataBit b j := by
  rw [dataBit_testBit, dataBit_testBit, Nat.shiftLeft_eq, one_mul, Nat.testBit_xor,
    Nat.testBit_two_pow_self]
  cases b.testBit j <;> simp

theorem range_eight_split (j : Nat) (hj : j < 8) :
    ∃ B : List Nat, List.range 8 = List.range j ++ j :: B ∧ ∀ k ∈ B, k ≠ j := by
  obtain ⟨m, hm⟩ : ∃ m, 8 = j + (m + 1) := ⟨7 - j, by omega⟩
  refine ⟨(List.range m).map (fun x => j + (x + 1)), ?_, ?_⟩
  · rw [hm, List.range_add, List.range_succ_eq_map, List.map_cons, List.map_map]
    simp [Function.comp_def, Nat.add_comm, Nat.add_assoc, Nat.add_left_comm]
  · intro k hk
    simp only [List.mem_map] at hk
    obtain ⟨x, _, rfl⟩ := hk
    omega

theorem crcByteStep_flip (r b j : Nat) (hr : r < 2 ^ 16) (hj : j < 8) :
    crcByteStep r (b ^^^ (1 <<< j)) ≠ crcByteStep r b := by
  obtain ⟨B, hsplit, hB⟩ := range_eight_split j hj
  unfold crcByteStep
  rw [hsplit, crcBitsFold_append, crcBitsFold_append, crcBitsFold_cons,
    crcBitsFold_cons]
  have hpre : crcBitsFold r (b ^^^ (1 <<< j)) (List.range j) =
      crcBitsFold r b (List.range j) := by
    unfold crcBitsFold
    apply List.foldl_ext
    intro a k hk
    rw [dataBit_flip_ne b j k (by have := List.mem_range.mp hk; omega)]
  rw [hpre]
  have hr1lt : crcBitsFold r b (List.range j) < 2 ^ 16 := crcBitsFold_lt _ _ _ hr
  apply crcBitsFold_ne B _ _ (fun k hk => dataBit_flip_ne b j k (hB k hk)) _ _
    (crcBitStep_lt _ _) (crcBitStep_lt _ _)
  intro heq
  exact crcBitStep_d_ne _ _ _ hr1lt (dataBit_le _ _) (dataBit_le _ _)
    (dataBit_flip_self b j) heq

theorem crcFold_flip : ∀ (m : List Nat) (i j r : Nat), r < 2 ^ 16 →
    i < m.length → j < 8 →
    (m.set i (m.getD i 0 ^^^ (1 <<< j))).foldl crcByteStep r ≠
      m.foldl crcByteStep r := by
  intro m
  induction m with
  | nil => intro i j r _ hi _; simp at hi
  | cons b t ih =>
    intro i j r hr hi hj
    cases i with
    | zero =>
      rw [List.getD_cons_zero, List.set_cons_zero, List.foldl_cons, List.foldl_cons]
      exact crcFold_ne t _ _ (crcByteStep_lt _ _ hr) (crcByteStep_lt _ _ hr)
        (crcByteStep_flip r b j hr hj)
    | succ i2 =>
      rw [List.getD_cons_succ, List.set_cons_succ, List.foldl_cons, List.foldl_cons]
      exact ih i2 j (crcByteStep r b) (crcByteStep_lt _ _ hr) (by simpa using hi) hj

theorem crcRegister_lt (data : List Nat) : crcRegister data < 2 ^ 16 :=
  crcFold_lt data 0 (by norm_num)

theorem crcRegister_flip (m : List Nat) (i j : Nat) (hi : i < m.length)
    (hj : j < 8) :
    crcRegister (m.set i (m.getD i 0 ^^^ (1 <<< j))) ≠ crcRegister m :=
  crcFold_flip m i j 0 (by norm_num) hi hj

theorem atca_pair_ne (m1 m2 : List Nat) (h : crcRegister m1 ≠ crcRegister m2) :
    atca_calculate_crc m1 ≠ atca_calculate_crc m2 := by
  intro heq
  apply h
  have h1 := congrArg Prod.fst heq
  have h2 := congrArg Prod.snd heq
  simp only [atca_calculate_crc] at h1 h2
  rw [show (0xFF : Nat) = 2 ^ 8 - 1 from by norm_num, and_two_pow_sub_one,
    and_two_pow_sub_one] at h1
  rw [Nat.shiftRight_eq_div_pow, Nat.shiftRight_eq_div_pow] at h2
  have d1 := Nat.div_add_mod (crcRegister m1) (2 ^ 8)
  have d2 := Nat.div_add_mod (crcRegister m2) (2 ^ 8)
  norm_num at h1 h2 d1 d2
  omega

/-! ## Buffer access and checksum-check characterisations -/

theorem bufBytes_eq_take (l : List Nat) (n : Nat) (h : n ≤ l.length) :
    bufBytes l n = l.take n := by
  apply List.ext_getElem
  · simp [bufBytes, List.length_take, Nat.min_eq_left h]
  · intro k h1 h2
    simp only [bufBytes, List.getElem_map, List.getElem_range]
    rw [List.getElem_take]
    have hk : k < l.length := by
      simp only [bufBytes, List.length_map, List.length_range] at h1
      omega
    exact List.getD_eq_getElem l 0 hk

theorem checkCrc_eq_true_iff (buf : List Nat) (cnt : Nat) :
    checkCrc buf cnt = true ↔
      buf.getD (cnt - 2) 0 = (atca_calculate_crc (bufBytes buf (cnt - 2))).1 ∧
      buf.getD (cnt - 1) 0 = (atca_calculate_crc (bufBytes buf (cnt - 2))).2 := by
  unfold checkCrc
  split <;> rename_i hcond
  · simp only [Bool.false_eq_true, false_iff]
    intro ⟨ha, hb⟩
    rcases hcond with h | h
    · exact h hb
    · exact h ha
  · push_neg at hcond
    exact iff_of_true rfl ⟨hcond.2, hcond.1⟩

theorem checkCrc_eq_false_of (buf : List Nat) (cnt : Nat)
    (h : buf.getD (cnt - 1) 0 ≠ (atca_calculate_crc (bufBytes buf (cnt - 2))).2 ∨
         buf.getD (cnt - 2) 0 ≠ (atca_calculate_crc (bufBytes buf (cnt - 2))).1) :
    checkCrc buf cnt = false := by
  unfold checkCrc
  rw [if_pos h]

/-! ## Claim C1: the checksum routine implements exactly the spec algorithm -/

/-- C1: `atca_calculate_crc` implements exactly the algorithm worded in the
specification: 16-bit register starting at 0, each byte processed
least-significant-bit first, compare each data bit with the register's top
bit, shift left by one, XOR with 0x8005 whenever they differ, and output the
final register's low byte first and high byte second.  `crc16spec` is written
from the spec text, `atca_calculate_crc` from the source; they agree on every
input. -/
theorem claim_C1_crc_algorithm :
    ∀ data : List Nat, crc16spec data = atca_calculate_crc data := by
  intro data
  have hs : ∀ r : Nat, r * 2 % 2 ^ 16 = (r <<< 1) % 2 ^ 16 := fun r => by
    rw [Nat.shiftLeft_eq, Nat.pow_one]
  have hstep : ∀ reg b : Nat,
      (List.range 8).foldl (fun reg i =>
        let bit := b / 2 ^ i % 2
        let top := reg / 2 ^ 15
        let reg2 := reg * 2 % 2 ^ 16
        if bit ≠ top then reg2 ^^^ 0x8005 else reg2) reg = crcByteStep reg b := by
    intro reg b
    unfold crcByteStep crcBitsFold
    apply List.foldl_ext
    intro a i _
    show (if b / 2 ^ i % 2 ≠ a / 2 ^ 15 then a * 2 % 2 ^ 16 ^^^ 0x8005
          else a * 2 % 2 ^ 16) = crcBitStep a (dataBit b i)
    rw [← dataBit_div_mod, ← Nat.shiftRight_eq_div_pow, hs]
    rfl
  have hreg : data.foldl (fun reg b =>
      (List.range 8).foldl (fun reg i =>
        let bit := b / 2 ^ i % 2
        let top := reg / 2 ^ 15
        let reg2 := reg * 2 % 2 ^ 16
        if bit ≠ top then reg2 ^^^ 0x8005 else reg2) reg) 0 = crcRegister data := by
    unfold crcRegister
    exact List.foldl_ext _ _ 0 (fun a b _ => hstep a b)
  show (let reg := data.foldl _ 0; (reg % 2 ^ 8, reg / 2 ^ 8)) = atca_calculate_crc data
  rw [show (let reg := data.foldl (fun reg b =>
      (List.range 8).foldl (fun reg i =>
        let bit := b / 2 ^ i % 2
        let top := reg / 2 ^ 15
        let reg2 := reg * 2 % 2 ^ 16
        if bit ≠ top then reg2 ^^^ 0x8005 else reg2) reg) 0;
      (reg % 2 ^ 8, reg / 2 ^ 8)) =
      (crcRegister data % 2 ^ 8, crcRegister data / 2 ^ 8) from by rw [← hreg]]
  unfold atca_calculate_crc
  rw [show (0xFF : Nat) = 2 ^ 8 - 1 from by norm_num, and_two_pow_sub_one,
    Nat.shiftRight_eq_div_pow]

/-- Witness for C1 at the spec's known-vector input, the 5 CRC-covered bytes
of the info-query command packet. -/
theorem claim_C1_witness :
    crc16spec [0x07, 0x30, 0x00, 0x00, 0x00] =
      atca_calculate_crc [0x07, 0x30, 0x00, 0x00, 0x00] :=
  claim_C1_crc_algorithm [0x07, 0x30, 0x00, 0x00, 0x00]

/-! ## Claim C2: a message followed by its own checksum always passes -/

/-- C2: appending to any byte sequence the two checksum bytes computed over
it by `atca_calculate_crc`, then running `checkCrc` on the combined sequence
with the byte counter equal to its total length, always succeeds. -/
theorem claim_C2_roundtrip (msg : List Nat) :
    checkCrc (msg ++ [(atca_calculate_crc msg).1, (atca_calculate_crc msg).2])
      (msg.length + 2) = true := by
  have hb : bufBytes
      (msg ++ [(atca_calculate_crc msg).1, (atca_calculate_crc msg).2])
      (msg.length + 2 - 2) = msg := by
    rw [show msg.length + 2 - 2 = msg.length from by omega,
      bufBytes_eq_take _ _ (by simp), List.take_left]
  rw [checkCrc_eq_true_iff, hb,
    show msg.length + 2 - 2 = msg.length from by omega,
    show msg.length + 2 - 1 = msg.length + 1 from by omega,
    List.getD_append_right _ _ _ _ (Nat.le_refl _),
    List.getD_append_right _ _ _ _ (by omega)]
  simp

/-- Witness for C2 at the concrete two-byte message of the wake
acknowledgement. -/
theorem claim_C2_witness :
    checkCrc ([0x04, 0x11] ++
      [(atca_calculate_crc [0x04, 0x11]).1, (atca_calculate_crc [0x04, 0x11]).2])
      ([0x04, 0x11].length + 2) = true :=
  claim_C2_roundtrip [0x04, 0x11]

/-! ## Claim C3: any single flipped bit is rejected by checkCrc -/

theorem getD_set_ne (l : List Nat) (i k v : Nat) (h : i ≠ k) :
    (l.set i v).getD k 0 = l.getD k 0 := by
  rw [List.getD_eq_getElem?_getD, List.getD_eq_getElem?_getD, List.getElem?_set_ne h]

theorem getD_set_self (l : List Nat) (i v : Nat) (h : i < l.length) :
    (l.set i v).getD i 0 = v := by
  rw [List.getD_eq_getElem?_getD, List.getElem?_set_self h]
  rfl

theorem getD_take (l : List Nat) (m k : Nat) (h : k < m) :
    (l.take m).getD k 0 = l.getD k 0 := by
  rw [List.getD_eq_getElem?_getD, List.getD_eq_getElem?_getD, List.getElem?_take,
    if_pos h]

theorem flipBit_getD_self (resp : List Nat) (i j : Nat) (h : i < resp.length) :
    (flipBit resp i j).getD i 0 = resp.getD i 0 ^^^ (1 <<< j) :=
  getD_set_self resp i _ h

theorem flipBit_getD_ne (resp : List Nat) (i j k : Nat) (h : i ≠ k) :
    (flipBit resp i j).getD k 0 = resp.getD k 0 :=
  getD_set_ne resp i k _ h

theorem one_shiftLeft_ne_zero (j : Nat) : (1 <<< j : Nat) ≠ 0 := by
  rw [Nat.shiftLeft_eq, one_mul]
  have := pow_pos (show (0 : Nat) < 2 by norm_num) j
  omega

/-- C3: for every received response that passes `checkCrc` (run with the byte
counter equal to the response length, as the callers do), flipping any single
bit of the response at any byte position and any bit position, without
recomputing the two trailing checksum bytes, makes `checkCrc` return `false`.
The hypothesis `2 ≤ resp.length` keeps the C code inside its buffer: for
counts below 2 the C routine would index `inputBuffer[countGlobal - 2]` out
of bounds.  All real responses have length at least 4. -/
theorem claim_C3_single_bit (resp : List Nat) (i j : Nat) (hlen : 2 ≤ resp.length)
    (hi : i < resp.length) (hj : j < 8)
    (hpass : checkCrc resp resp.length = true) :
    checkCrc (flipBit resp i j) resp.length = false := by
  have hfliplen : (flipBit resp i j).length = resp.length := by
    simp [flipBit]
  have hb : bufBytes resp (resp.length - 2) = resp.take (resp.length - 2) :=
    bufBytes_eq_take _ _ (by omega)
  rw [checkCrc_eq_true_iff, hb] at hpass
  obtain ⟨hlo, hhi⟩ := hpass
  have htake_len : (resp.take (resp.length - 2)).length = resp.length - 2 := by
    rw [List.length_take]
    omega
  have hbflip : bufBytes (flipBit resp i j) (resp.length - 2) =
      (resp.take (resp.length - 2)).set i (resp.getD i 0 ^^^ (1 <<< j)) := by
    rw [bufBytes_eq_take _ _ (by rw [hfliplen]; omega)]
    exact List.set_take
  apply checkCrc_eq_false_of
  rw [hbflip]
  rcases Nat.lt_or_ge i (resp.length - 2) with hcase | hcase
  · -- the flipped bit lies in the CRC-covered region: the recomputed pair moves
    have hset_take : (resp.take (resp.length - 2)).set i
          (resp.getD i 0 ^^^ (1 <<< j)) =
        (resp.take (resp.length - 2)).set i
          ((resp.take (resp.length - 2)).getD i 0 ^^^ (1 <<< j)) := by
      rw [getD_take _ _ _ hcase]
    rw [hset_take]
    have hpair : atca_calculate_crc ((resp.take (resp.length - 2)).set i
          ((resp.take (resp.length - 2)).getD i 0 ^^^ (1 <<< j))) ≠
        atca_calculate_crc (resp.take (resp.length - 2)) :=
      atca_pair_ne _ _ (crcRegister_flip _ i j (by rw [htake_len]; exact hcase) hj)
    have hs1 : (flipBit resp i j).getD (resp.length - 1) 0 =
        resp.getD (resp.length - 1) 0 := flipBit_getD_ne resp i j _ (by omega)
    have hs2 : (flipBit resp i j).getD (resp.length - 2) 0 =
        resp.getD (resp.length - 2) 0 := flipBit_getD_ne resp i j _ (by omega)
    by_contra hno
    push_neg at hno
    obtain ⟨h1, h2⟩ := hno
    exact hpair (Prod.ext_iff.mpr
      ⟨h2.symm.trans (hs2.trans hlo), h1.symm.trans (hs1.trans hhi)⟩)
  · -- the flipped bit lies in one of the two stored checksum bytes
    have hset_noop : (resp.take (resp.length - 2)).set i
          (resp.getD i 0 ^^^ (1 <<< j)) = resp.take (resp.length - 2) :=
      List.set_eq_of_length_le (by rw [htake_len]; omega)
    rw [hset_noop]
    rcases (by omega : i = resp.length - 2 ∨ i = resp.length - 1) with rfl | rfl
    · right
      rw [flipBit_getD_self resp _ j (by omega), ← hlo]
      exact xor_ne_self _ _ (one_shiftLeft_ne_zero j)
    · left
      rw [flipBit_getD_self resp _ j (by omega), ← hhi]
      exact xor_ne_self _ _ (one_shiftLeft_ne_zero j)

/-- Witness for C3: the valid wake acknowledgement with bit 0 of its status
byte flipped is rejected. -/
theorem claim_C3_witness :
    checkCrc (flipBit [0x04, 0x11, 0x33, 0x43] 1 0) [0x04, 0x11, 0x33, 0x43].length
      = false :=
  claim_C3_single_bit [0x04, 0x11, 0x33, 0x43] 1 0 (by decide) (by decide)
    (by decide) (by decide)

/-! ## The chunked receive loop -/

theorem readChunk_spec : ∀ (c : List Nat) (l : Nat) (buf : List Nat) (cnt : Nat),
    c.length ≤ l →
    readChunk c l buf cnt = (l - c.length, buf ++ c, cnt + c.length) := by
  intro c
  induction c with
  | nil => intro l buf cnt _; simp [readChunk]
  | cons b cs ih =>
    intro l buf cnt h
    cases l with
    | zero => exact absurd h (by simp)
    | succ l2 =>
      rw [readChunk, if_neg (by omega),
        ih (l2 + 1 - 1) (buf ++ [b]) (cnt + 1) (by simp at h ⊢; omega)]
      simp only [Prod.mk.injEq, List.append_assoc, List.singleton_append,
        List.length_cons, true_and, and_true]
      constructor <;> omega

theorem receiveLoop_zero (chunks : List (List Nat)) (buf : List Nat) (cnt : Nat) :
    receiveLoop chunks 0 buf cnt = some (buf, cnt, []) := by
  cases chunks <;> rfl

theorem receiveLoop_cons_succ (c : List Nat) (rest : List (List Nat)) (l : Nat)
    (buf : List Nat) (cnt : Nat) (h : c.length ≤ l + 1) :
    receiveLoop (c :: rest) (l + 1) buf cnt =
      match receiveLoop rest (l + 1 - c.length) (buf ++ c) (cnt + c.length) with
      | none => none
      | some (buf3, cnt3, reqs) =>
          some (buf3, cnt3, (if l + 1 > 32 then 32 else l + 1) :: reqs) := by
  rw [receiveLoop, readChunk_spec c (l + 1) buf cnt h]

theorem requestAmount_eq_min (l : Nat) : (if l > 32 then 32 else l) = min 32 l := by
  rcases Nat.lt_or_ge 32 l with h | h
  · rw [if_pos h, Nat.min_eq_left (by omega)]
  · rw [if_neg (by omega), Nat.min_eq_right (by omega)]

theorem receiveLoop_spec : ∀ (chunks : List (List Nat)) (l : Nat) (buf : List Nat)
    (cnt : Nat) (bufF : List Nat) (cntF : Nat) (reqs : List Nat),
    wfTransport chunks l = true →
    receiveLoop chunks l buf cnt = some (bufF, cntF, reqs) →
    bufF = buf ++ (chunks.take reqs.length).flatten ∧
    bufF.length = buf.length + l ∧
    cntF = cnt + l ∧
    (∀ r ∈ reqs, r ≤ 32) ∧
    (∀ (k : Nat) (hk : k < reqs.length),
      reqs.get ⟨k, hk⟩ = min 32 (l - ((chunks.map List.length).take k).sum)) := by
  intro chunks
  induction chunks with
  | nil =>
    intro l buf cnt bufF cntF reqs _ hrun
    cases l with
    | zero =>
      rw [receiveLoop_zero] at hrun
      obtain ⟨rfl, rfl, rfl⟩ := by simpa using hrun
      simp
    | succ l2 => exact absurd hrun (by rw [receiveLoop]; simp)
  | cons c rest ih =>
    intro l buf cnt bufF cntF reqs hwf hrun
    cases l with
    | zero =>
      rw [receiveLoop_zero] at hrun
      obtain ⟨rfl, rfl, rfl⟩ := by simpa using hrun
      simp
    | succ l2 =>
      rw [wfTransport] at hwf
      simp only [Bool.and_eq_true, decide_eq_true_eq] at hwf
      obtain ⟨hclen, hwfrest⟩ := hwf
      have hcle : c.length ≤ l2 + 1 := le_trans hclen (min_le_right _ _)
      rw [receiveLoop_cons_succ c rest l2 buf cnt hcle] at hrun
      cases hrec : receiveLoop rest (l2 + 1 - c.length) (buf ++ c) (cnt + c.length) with
      | none => rw [hrec] at hrun; cases hrun
      | some out =>
        obtain ⟨buf3, cnt3, reqs3⟩ := out
        rw [hrec] at hrun
        obtain ⟨rfl, rfl, rfl⟩ := by simpa using hrun
        obtain ⟨he1, he2, he3, he4, he5⟩ := ih _ _ _ _ _ _ hwfrest hrec
        refine ⟨?_, ?_, ?_, ?_, ?_⟩
        · rw [he1, List.length_cons, List.take_succ_cons, List.flatten_cons,
            List.append_assoc]
        · rw [he2]
          simp only [List.length_append]
          omega
        · rw [he3]; omega
        · intro r hr
          rcases List.mem_cons.mp hr with rfl | hr2
          · split <;> omega
          · exact he4 r hr2
        · intro k hk
          cases k with
          | zero =>
            show (if l2 + 1 > 32 then 32 else l2 + 1) = _
            rw [requestAmount_eq_min]
            simp
          | succ k2 =>
            show reqs3.get ⟨k2, by simpa using hk⟩ = _
            rw [he5 k2 (by simpa using hk)]
            congr 1
            simp only [List.map_cons, List.take_succ_cons, List.sum_cons]
            omega

theorem receiveLoop_complete : ∀ (chunks : List (List Nat)) (l : Nat)
    (buf : List Nat) (cnt : Nat), deliversAll chunks l = true →
    ∃ reqs : List Nat,
      receiveLoop chunks l buf cnt = some (buf ++ chunks.flatten, cnt + l, reqs) := by
  intro chunks
  induction chunks with
  | nil =>
    intro l buf cnt h
    rw [deliversAll] at h
    simp only [decide_eq_true_eq] at h
    subst h
    exact ⟨[], by rw [receiveLoop_zero]; simp⟩
  | cons c rest ih =>
    intro l buf cnt h
    rw [deliversAll] at h
    simp only [Bool.and_eq_true, decide_eq_true_eq] at h
    obtain ⟨⟨hpos, hle⟩, hrest⟩ := h
    obtain ⟨l2, rfl⟩ : ∃ l2, l = l2 + 1 := ⟨l - 1, by omega⟩
    obtain ⟨reqs, hr⟩ := ih (l2 + 1 - c.length) (buf ++ c) (cnt + c.length) hrest
    refine ⟨(if l2 + 1 > 32 then 32 else l2 + 1) :: reqs, ?_⟩
    rw [receiveLoop_cons_succ c rest l2 buf cnt (le_trans hle (min_le_right _ _)), hr]
    simp only [List.flatten_cons, List.append_assoc, Option.some.injEq,
      Prod.mk.injEq, true_and, and_true]
    omega

theorem receiveResponseData_some_true (l : Nat) (chunks : List (List Nat))
    (r : Bool × List Nat × Nat × List Nat)
    (h : receiveResponseData l chunks = some r) : r.1 = true := by
  unfold receiveResponseData at h
  cases hrec : receiveLoop chunks l [] 0 with
  | none => rw [hrec] at h; cases h
  | some out =>
    obtain ⟨b, c, q⟩ := out
    rw [hrec] at h
    cases h
    rfl

theorem receiveResponseData_complete (l : Nat) (chunks : List (List Nat))
    (h : deliversAll chunks l = true) :
    ∃ reqs : List Nat,
      receiveResponseData l chunks = some (true, chunks.flatten, l, reqs) := by
  obtain ⟨reqs, hr⟩ := receiveLoop_complete chunks l [] 0 h
  refine ⟨reqs, ?_⟩
  unfold receiveResponseData
  rw [hr]
  simp

/-! ## Claims C5, C6, C7, C9 -/

/-- C5: `checkCount` returns `false` exactly when the first byte of the
response buffer differs from the running byte counter, and `true`
otherwise. -/
theorem claim_C5_count_check : ∀ (buf : List Nat) (cnt : Nat),
    checkCount buf cnt = false ↔ buf.getD 0 0 ≠ cnt := by
  intro buf cnt
  unfold checkCount
  split <;> rename_i h
  · exact iff_of_true rfl h
  · exact iff_of_false (by decide) h

/-- Witness for C5 at a concrete mismatching response. -/
theorem claim_C5_witness :
    checkCount [3, 0, 0] 4 = false ↔ ([3, 0, 0] : List Nat).getD 0 0 ≠ 4 :=
  claim_C5_count_check [3, 0, 0] 4

/-- C6: `checkCrc` recomputes the checksum over all received bytes except the
trailing two and returns `false` exactly when at least one trailing byte
differs from the corresponding recomputed byte (low byte at position
`count - 2`, high byte at position `count - 1`); otherwise `true`.  Stated
for a received response, i.e. the byte counter equals the buffer length; the
bound `2 ≤ resp.length` keeps the C code inside its buffer. -/
theorem claim_C6_crc_check (resp : List Nat) (h2 : 2 ≤ resp.length) :
    checkCrc resp resp.length = false ↔
      resp.getD (resp.length - 2) 0 ≠
        (atca_calculate_crc (resp.take (resp.length - 2))).1 ∨
      resp.getD (resp.length - 1) 0 ≠
        (atca_calculate_crc (resp.take (resp.length - 2))).2 := by
  rw [← bufBytes_eq_take resp _ (by omega)]
  constructor
  · intro h
    by_contra hno
    push_neg at hno
    have htrue := (checkCrc_eq_true_iff resp resp.length).mpr ⟨hno.1, hno.2⟩
    rw [htrue] at h
    cases h
  · intro h
    apply checkCrc_eq_false_of
    tauto

/-- Witness for C6 at the response whose stored pair `0x33, 0x44` differs from
the recomputed pair `0x33, 0x43` in the high byte. -/
theorem claim_C6_witness :
    checkCrc [0x04, 0x11, 0x33, 0x44] [0x04, 0x11, 0x33, 0x44].length = false ↔
      ([0x04, 0x11, 0x33, 0x44] : List Nat).getD
          ([0x04, 0x11, 0x33, 0x44].length - 2) 0 ≠
        (atca_calculate_crc ([0x04, 0x11, 0x33, 0x44].take
          ([0x04, 0x11, 0x33, 0x44].length - 2))).1 ∨
      ([0x04, 0x11, 0x33, 0x44] : List Nat).getD
          ([0x04, 0x11, 0x33, 0x44].length - 1) 0 ≠
        (atca_calculate_crc ([0x04, 0x11, 0x33, 0x44].take
          ([0x04, 0x11, 0x33, 0x44].length - 2))).2 :=
  claim_C6_crc_check [0x04, 0x11, 0x33, 0x44] (by decide)

/-- C7: for every requested length, every terminating run of
`receiveResponseData` over a well-behaved transport issues bus requests that
never exceed 32 bytes — exactly 32 while more than 32 bytes remain and the
remainder otherwise — appends the bytes made available in arrival order, and
terminates with exactly the requested number of bytes consumed. -/
theorem claim_C7_chunked_receive (length : Nat) (chunks : List (List Nat))
    (bufF : List Nat) (cntF : Nat) (reqs : List Nat)
    (hwf : wfTransport chunks length = true)
    (hrun : receiveResponseData length chunks = some (true, bufF, cntF, reqs)) :
    (∀ r ∈ reqs, r ≤ 32) ∧
    (∀ (k : Nat) (hk : k < reqs.length),
      reqs.get ⟨k, hk⟩ = min 32 (length - ((chunks.map List.length).take k).sum)) ∧
    bufF = (chunks.take reqs.length).flatten ∧
    bufF.length = length ∧ cntF = length := by
  unfold receiveResponseData at hrun
  cases hrec : receiveLoop chunks length [] 0 with
  | none => rw [hrec] at hrun; cases hrun
  | some out =>
    obtain ⟨b, c, q⟩ := out
    rw [hrec] at hrun
    obtain ⟨rfl, rfl, rfl⟩ := by simpa using hrun
    obtain ⟨he1, he2, he3, he4, he5⟩ := receiveLoop_spec chunks length [] 0 _ _ _
      hwf hrec
    refine ⟨he4, he5, by simpa using he1, by simpa using he2, by simpa using he3⟩

/-- Witness for C7: a 35-byte request served as a 32-byte chunk followed by a
3-byte chunk. -/
theorem claim_C7_witness :
    (∀ r ∈ ([32, 3] : List Nat), r ≤ 32) ∧
    (∀ (k : Nat) (hk : k < ([32, 3] : List Nat).length),
      ([32, 3] : List Nat).get ⟨k, hk⟩ =
        min 32 (35 - ((([List.replicate 32 7, [5, 5, 5]].map List.length).take k).sum))) ∧
    List.replicate 32 7 ++ [5, 5, 5] =
      (([List.replicate 32 7, [5, 5, 5]] : List (List Nat)).take
        ([32, 3] : List Nat).length).flatten ∧
    (List.replicate 32 7 ++ [5, 5, 5] : List Nat).length = 35 ∧ (35 : Nat) = 35 :=
  claim_C7_chunked_receive 35 [List.replicate 32 7, [5, 5, 5]]
    (List.replicate 32 7 ++ [5, 5, 5]) 35 [32, 3] (by decide) (by decide)

/-- C9: `receiveResponseData` returns `true` on every call that terminates —
it has no failure return path — so the branches of `wakeUp`, `getInfo` and
`updateRandom32Bytes` that test its result for `false` never fire: each
function equals its variant with that test removed. -/
theorem claim_C9_receive_always_true :
    (∀ (l : Nat) (chunks : List (List Nat)) (r : Bool × List Nat × Nat × List Nat),
      receiveResponseData l chunks = some r → r.1 = true) ∧
    (∀ chunks : List (List Nat), wakeUp chunks = wakeUpNoRecvTest chunks) ∧
    (∀ chunks : List (List Nat), getInfo chunks = getInfoNoRecvTest chunks) ∧
    (∀ (st : List Nat) (chunks : List (List Nat)),
      updateRandom32Bytes st chunks = updateRandom32BytesNoRecvTest st chunks) := by
  refine ⟨receiveResponseData_some_true, ?_, ?_, ?_⟩
  · intro chunks
    unfold wakeUp wakeUpNoRecvTest
    cases hrec : receiveResponseData 4 chunks with
    | none => rfl
    | some r =>
      obtain ⟨ok, buf, cnt, q⟩ := r
      have hok : ok = true := receiveResponseData_some_true _ _ _ hrec
      subst hok
      simp
  · intro chunks
    unfold getInfo getInfoNoRecvTest
    cases hrec : receiveResponseData 7 chunks with
    | none => rfl
    | some r =>
      obtain ⟨ok, buf, cnt, q⟩ := r
      have hok : ok = true := receiveResponseData_some_true _ _ _ hrec
      subst hok
      simp
  · intro st chunks
    unfold updateRandom32Bytes updateRandom32BytesNoRecvTest
    cases hrec : receiveResponseData 35 chunks with
    | none => rfl
    | some r =>
      obtain ⟨ok, buf, cnt, q⟩ := r
      have hok : ok = true := receiveResponseData_some_true _ _ _ hrec
      subst hok
      simp

/-- Witness for C9: a terminating receive whose boolean result is `true`, and
the branch-free equality at a concrete transport. -/
theorem claim_C9_witness :
    ((true, ([] : List Nat), 0, ([] : List Nat)).1 = true) ∧
      wakeUp [[4, 17, 51, 67]] = wakeUpNoRecvTest [[4, 17, 51, 67]] :=
  ⟨claim_C9_receive_always_true.1 0 [] (true, [], 0, []) rfl,
   claim_C9_receive_always_true.2.1 [[4, 17, 51, 67]]⟩

/-! ## Claim C4: the wake-up acknowledgement check

The claim names `{0x04, 0x11, 0x33, 0x44}` (the byte pattern from the
library's own doc comment) as a successful acknowledgement, but the CRC the
code computes over `[0x04, 0x11]` is `(0x33, 0x43)`, so `checkCrc` rejects
`…0x33, 0x44` and `wakeUp` returns `false` on it.  The acknowledgement the
code accepts — and the one the chip actually sends — is
`{0x04, 0x11, 0x33, 0x43}`. -/

/-- Counterexample to C4 as stated: the acknowledgement `{04, 11, 33, 44}`
yields failure, not success. -/
theorem claim_C4_counterexample :
    wakeUp [[0x04, 0x11, 0x33, 0x44]] = some false := by decide

/-- C4 (amended): `wakeUp` reads a 4-byte acknowledgement and returns `true`
iff the count check, the checksum check and the wake-confirmed-code check
(second byte equal to `0x11`) all pass, with no retry; the acknowledgement
`{0x04, 0x11, 0x33, 0x43}` yields success, and an acknowledgement with
correct count and checksum but second byte different from `0x11` yields
failure. -/
theorem claim_C4_wakeup (ack : List Nat) (hlen : ack.length = 4) :
    wakeUp [ack] =
      some (checkCount ack 4 && checkCrc ack 4 && (ack.getD 1 0 == 0x11)) ∧
    wakeUp [[0x04, 0x11, 0x33, 0x43]] = some true ∧
    wakeUp [[0x04, 0x01, (atca_calculate_crc [0x04, 0x01]).1,
      (atca_calculate_crc [0x04, 0x01]).2]] = some false := by
  refine ⟨?_, by decide, by decide⟩
  have hda : deliversAll [ack] 4 = true := by
    rw [deliversAll, deliversAll, hlen]
    decide
  obtain ⟨reqs, hr⟩ := receiveResponseData_complete 4 [ack] hda
  have hflat : ([ack] : List (List Nat)).flatten = ack := by simp
  rw [hflat] at hr
  unfold wakeUp
  rw [hr]
  show (if (true = false) then some false
        else if checkCount ack 4 = false then some false
        else if checkCrc ack 4 = false then some false
        else if ack.getD 1 0 = 0x11 then some true else some false) = _
  rw [if_neg (by decide)]
  have hfin : ∀ x : Nat, (if x = 0x11 then some true else some false) =
      some (x == 0x11) := by
    intro x
    by_cases hx : x = 0x11 <;> simp [hx]
  cases hc : checkCount ack 4 <;> cases hcr : checkCrc ack 4 <;>
    simp [hc, hcr, hfin]

/-- Witness for the amended C4 at a concrete 4-byte acknowledgement. -/
theorem claim_C4_witness :
    wakeUp [[0, 0, 0, 0]] =
      some (checkCount [0, 0, 0, 0] 4 && checkCrc [0, 0, 0, 0] 4 &&
        (([0, 0, 0, 0] : List Nat).getD 1 0 == 0x11)) ∧
    wakeUp [[0x04, 0x11, 0x33, 0x43]] = some true ∧
    wakeUp [[0x04, 0x01, (atca_calculate_crc [0x04, 0x01]).1,
      (atca_calculate_crc [0x04, 0x01]).2]] = some false :=
  claim_C4_wakeup [0, 0, 0, 0] (by decide)

/-! ## Claims C8 and C10: the random fetch and its accessors -/

theorem shiftLeft8_or_eq (a b : Nat) (hb : b < 2 ^ 8) :
    a <<< 8 ||| b = a * 2 ^ 8 + b := by
  rw [Nat.shiftLeft_eq, Nat.mul_comm a (2 ^ 8)]
  exact (Nat.mul_add_lt_is_or hb a).symm

theorem getD_mem (l : List Nat) (k : Nat) (h : k < l.length) : l.getD k 0 ∈ l := by
  rw [List.getD_eq_getElem l 0 h]
  exact List.getElem_mem h

/-- C8: on success, `updateRandom32Bytes` copies exactly the 32 data bytes of
the 35-byte response (positions 1 through 32, skipping the count byte) into
the random output buffer, and the accessors — each running a fresh fetch —
return the first byte of that buffer, its first two bytes as a big-endian
16-bit integer, and its first four bytes as a big-endian 32-bit integer.  The
transport serves the 35 bytes as one 32-byte chunk and one 3-byte chunk. -/
theorem claim_C8_random_fetch (st resp : List Nat) (hlen : resp.length = 35)
    (hbytes : ∀ b ∈ resp, b < 256)
    (hcount : checkCount resp 35 = true) (hcrc : checkCrc resp 35 = true) :
    updateRandom32Bytes st [resp.take 32, resp.drop 32] =
      some (true, (resp.drop 1).take 32) ∧
    getRandomByte st [resp.take 32, resp.drop 32] =
      some (resp.getD 1 0, (resp.drop 1).take 32) ∧
    getRandomInt st [resp.take 32, resp.drop 32] =
      some (resp.getD 1 0 * 2 ^ 8 + resp.getD 2 0, (resp.drop 1).take 32) ∧
    getRandomLong st [resp.take 32, resp.drop 32] =
      some (resp.getD 1 0 * 2 ^ 24 + resp.getD 2 0 * 2 ^ 16 +
        resp.getD 3 0 * 2 ^ 8 + resp.getD 4 0, (resp.drop 1).take 32) := by
  have hda : deliversAll [resp.take 32, resp.drop 32] 35 = true := by
    rw [deliversAll, deliversAll, deliversAll]
    simp [List.length_take, List.length_drop, hlen]
  obtain ⟨reqs, hr⟩ := receiveResponseData_complete 35 _ hda
  have hflat : ([resp.take 32, resp.drop 32] : List (List Nat)).flatten = resp := by
    simp [List.take_append_drop]
  rw [hflat] at hr
  have hget : ∀ k : Nat, k < 32 →
      ((resp.drop 1).take 32).getD k 0 = resp.getD (k + 1) 0 := by
    intro k hk
    rw [getD_take _ _ _ hk, List.getD_eq_getElem?_getD, List.getElem?_drop,
      ← List.getD_eq_getElem?_getD, Nat.add_comm 1 k]
  have hmap : (List.range 32).map (fun i => resp.getD (i + 1) 0) =
      (resp.drop 1).take 32 := by
    apply List.ext_getElem
    · simp [hlen]
    · intro k h1 h2
      simp only [List.getElem_map, List.getElem_range]
      rw [← List.getD_eq_getElem ((resp.drop 1).take 32) 0 h2,
        hget k (by simpa using h1)]
  have hupd : updateRandom32Bytes st [resp.take 32, resp.drop 32] =
      some (true, (resp.drop 1).take 32) := by
    unfold updateRandom32Bytes
    rw [hr]
    show (if (true = false) then some (false, st)
          else if checkCount resp 35 = false then some (false, st)
          else if checkCrc resp 35 = false then some (false, st)
          else some (true, (List.range 32).map (fun i => resp.getD (i + 1) 0))) = _
    rw [if_neg (by decide), hcount, hcrc, if_neg (by decide), if_neg (by decide),
      hmap]
  have hblt : ∀ k : Nat, k < 35 → resp.getD k 0 < 2 ^ 8 := by
    intro k hk
    have e : (2 : Nat) ^ 8 = 256 := by norm_num
    rw [e]
    exact hbytes _ (getD_mem resp k (by omega))
  refine ⟨hupd, ?_, ?_, ?_⟩
  · unfold getRandomByte
    rw [hupd]
    show some (((resp.drop 1).take 32).getD 0 0, (resp.drop 1).take 32) = _
    rw [hget 0 (by omega)]
  · unfold getRandomInt
    rw [hupd]
    show some ((((resp.drop 1).take 32).getD 0 0) <<< 8 |||
      ((resp.drop 1).take 32).getD 1 0, (resp.drop 1).take 32) = _
    rw [hget 0 (by omega), hget 1 (by omega),
      shiftLeft8_or_eq _ _ (hblt 2 (by omega))]
  · unfold getRandomLong
    rw [hupd]
    show some ((((((((resp.drop 1).take 32).getD 0 0) <<< 8 |||
      ((resp.drop 1).take 32).getD 1 0) <<< 8) |||
      ((resp.drop 1).take 32).getD 2 0) <<< 8) |||
      ((resp.drop 1).take 32).getD 3 0, (resp.drop 1).take 32) = _
    rw [hget 0 (by omega), hget 1 (by omega), hget 2 (by omega),
      hget 3 (by omega),
      shiftLeft8_or_eq _ _ (hblt 2 (by omega)),
      shiftLeft8_or_eq _ _ (hblt 3 (by omega)),
      shiftLeft8_or_eq _ _ (hblt 4 (by omega))]
    have : (resp.getD 1 0 * 2 ^ 8 + resp.getD 2 0) * 2 ^ 8 + resp.getD 3 0 =
        resp.getD 1 0 * 2 ^ 16 + resp.getD 2 0 * 2 ^ 8 + resp.getD 3 0 := by ring
    rw [this]
    have : (resp.getD 1 0 * 2 ^ 16 + resp.getD 2 0 * 2 ^ 8 + resp.getD 3 0) * 2 ^ 8 +
        resp.getD 4 0 = resp.getD 1 0 * 2 ^ 24 + resp.getD 2 0 * 2 ^ 16 +
        resp.getD 3 0 * 2 ^ 8 + resp.getD 4 0 := by ring
    rw [this]

set_option maxRecDepth 10000 in
/-- Witness for C8: a valid 35-byte response carrying 32 data bytes equal to 6. -/
theorem claim_C8_witness :
    updateRandom32Bytes [] [(((35 : Nat) :: List.replicate 32 6) ++
        [(atca_calculate_crc (35 :: List.replicate 32 6)).1,
         (atca_calculate_crc (35 :: List.replicate 32 6)).2]).take 32,
      (((35 : Nat) :: List.replicate 32 6) ++
        [(atca_calculate_crc (35 :: List.replicate 32 6)).1,
         (atca_calculate_crc (35 :: List.replicate 32 6)).2]).drop 32] =
      some (true, ((((35 : Nat) :: List.replicate 32 6) ++
        [(atca_calculate_crc (35 :: List.replicate 32 6)).1,
         (atca_calculate_crc (35 :: List.replicate 32 6)).2]).drop 1).take 32) ∧
    getRandomByte [] [(((35 : Nat) :: List.replicate 32 6) ++
        [(atca_calculate_crc (35 :: List.replicate 32 6)).1,
         (atca_calculate_crc (35 :: List.replicate 32 6)).2]).take 32,
      (((35 : Nat) :: List.replicate 32 6) ++
        [(atca_calculate_crc (35 :: List.replicate 32 6)).1,
         (atca_calculate_crc (35 :: List.replicate 32 6)).2]).drop 32] =
      some ((((35 : Nat) :: List.replicate 32 6) ++
        [(atca_calculate_crc (35 :: List.replicate 32 6)).1,
         (atca_calculate_crc (35 :: List.replicate 32 6)).2]).getD 1 0,
        ((((35 : Nat) :: List.replicate 32 6) ++
        [(atca_calculate_crc (35 :: List.replicate 32 6)).1,
         (atca_calculate_crc (35 :: List.replicate 32 6)).2]).drop 1).take 32) ∧
    getRandomInt [] [(((35 : Nat) :: List.replicate 32 6) ++
        [(atca_calculate_crc (35 :: List.replicate 32 6)).1,
         (atca_calculate_crc (35 :: List.replicate 32 6)).2]).take 32,
      (((35 : Nat) :: List.replicate 32 6) ++
        [(atca_calculate_crc (35 :: List.replicate 32 6)).1,
         (atca_calculate_crc (35 :: List.replicate 32 6)).2]).drop 32] =
      some ((((35 : Nat) :: List.replicate 32 6) ++
        [(atca_calculate_crc (35 :: List.replicate 32 6)).1,
         (atca_calculate_crc (35 :: List.replicate 32 6)).2]).getD 1 0 * 2 ^ 8 +
        (((35 : Nat) :: List.replicate 32 6) ++
        [(atca_calculate_crc (35 :: List.replicate 32 6)).1,
         (atca_calculate_crc (35 :: List.replicate 32 6)).2]).getD 2 0,
        ((((35 : Nat) :: List.replicate 32 6) ++
        [(atca_calculate_crc (35 :: List.replicate 32 6)).1,
         (atca_calculate_crc (35 :: List.replicate 32 6)).2]).drop 1).take 32) ∧
    getRandomLong [] [(((35 : Nat) :: List.replicate 32 6) ++
        [(atca_calculate_crc (35 :: List.replicate 32 6)).1,
         (atca_calculate_crc (35 :: List.replicate 32 6)).2]).take 32,
      (((35 : Nat) :: List.replicate 32 6) ++
        [(atca_calculate_crc (35 :: List.replicate 32 6)).1,
         (atca_calculate_crc (35 :: List.replicate 32 6)).2]).drop 32] =
      some ((((35 : Nat) :: List.replicate 32 6) ++
        [(atca_calculate_crc (35 :: List.replicate 32 6)).1,
         (atca_calculate_crc (35 :: List.replicate 32 6)).2]).getD 1 0 * 2 ^ 24 +
        (((35 : Nat) :: List.replicate 32 6) ++
        [(atca_calculate_crc (35 :: List.replicate 32 6)).1,
         (atca_calculate_crc (35 :: List.replicate 32 6)).2]).getD 2 0 * 2 ^ 16 +
        (((35 : Nat) :: List.replicate 32 6) ++
        [(atca_calculate_crc (35 :: List.replicate 32 6)).1,
         (atca_calculate_crc (35 :: List.replicate 32 6)).2]).getD 3 0 * 2 ^ 8 +
        (((35 : Nat) :: List.replicate 32 6) ++
        [(atca_calculate_crc (35 :: List.replicate 32 6)).1,
         (atca_calculate_crc (35 :: List.replicate 32 6)).2]).getD 4 0,
        ((((35 : Nat) :: List.replicate 32 6) ++
        [(atca_calculate_crc (35 :: List.replicate 32 6)).1,
         (atca_calculate_crc (35 :: List.replicate 32 6)).2]).drop 1).take 32) :=
  claim_C8_random_fetch [] _ (by decide) (by decide) (by decide) (by decide)

/-- C10: the accessors ignore the boolean result of `updateRandom32Bytes`:
when the fetch fails a count or checksum check, the random buffer is left
unchanged and each accessor still returns a value built from its previous
contents (zero if it still holds its all-zero initial contents), with no
error indication. -/
theorem claim_C10_failure_path (st : List Nat) (chunks : List (List Nat))
    (st2 : List Nat)
    (h : updateRandom32Bytes st chunks = some (false, st2)) :
    st2 = st ∧
    getRandomByte st chunks = some (st.getD 0 0, st) ∧
    getRandomInt st chunks = some ((st.getD 0 0) <<< 8 ||| st.getD 1 0, st) ∧
    getRandomLong st chunks =
      some ((((((st.getD 0 0) <<< 8 ||| st.getD 1 0) <<< 8) ||| st.getD 2 0) <<< 8)
        ||| st.getD 3 0, st) ∧
    (st = List.replicate 32 0 → getRandomByte st chunks = some (0, st)) := by
  have hst : st2 = st := by
    unfold updateRandom32Bytes at h
    cases hrec : receiveResponseData 35 chunks with
    | none => rw [hrec] at h; cases h
    | some r =>
      obtain ⟨ok, buf, cnt, q⟩ := r
      rw [hrec] at h
      have hok : ok = true := receiveResponseData_some_true _ _ _ hrec
      subst hok
      have h3 : (if (true = false) then some (false, st)
          else if checkCount buf cnt = false then some (false, st)
          else if checkCrc buf cnt = false then some (false, st)
          else some (true, (List.range 32).map (fun i => buf.getD (i + 1) 0))) =
          some (false, st2) := h
      rw [if_neg (by decide)] at h3
      split at h3
      · exact (show st = st2 by simpa using h3).symm
      · split at h3
        · exact (show st = st2 by simpa using h3).symm
        · simp at h3
  rw [hst] at h
  have hupd : updateRandom32Bytes st chunks = some (false, st) := h
  refine ⟨hst, ?_, ?_, ?_, ?_⟩
  · unfold getRandomByte
    rw [hupd]
  · unfold getRandomInt
    rw [hupd]
  · unfold getRandomLong
    rw [hupd]
  · intro hrep
    unfold getRandomByte
    rw [hupd, hrep]
    rfl

/-- Witness for C10: an all-zero 35-byte response fails the count check, the
buffer keeps its previous contents and the byte accessor returns them. -/
theorem claim_C10_witness :
    getRandomByte [9, 8, 7, 6] [List.replicate 32 0, [0, 0, 0]] =
      some (9, [9, 8, 7, 6]) :=
  ((claim_C10_failure_path [9, 8, 7, 6] [List.replicate 32 0, [0, 0, 0]]
    [9, 8, 7, 6] (by decide)).2.1).trans (by decide)

end ATECCX08A
